import Mathlib

/-!
Verification development for the Fast-STOI repository.

The repository's visible Python source is the public wrapper
`stoi(x, y, fs_sig, extended)` in `src/pystoi/stoi/__init__.py`, which
validates its arguments with a fixed sequence of assertions and then calls
the compiled core `stoi_internal`.  The algorithmic core itself (resampling,
voice-activity detection, STFT, one-third-octave filterbank, segment
normalisation/clipping and correlation) is not part of the visible source;
it is modelled here from the specification.

Conventions of the embedding:
* NumPy arrays are modelled by `NPArray` (shape, dtype, real-valued data).
* Python `assert` failures at the validation boundary are modelled as
  `Except.error` values of the `StoiError` kind that the specification
  assigns to that check (`InvalidRate` for the sample-rate assertion,
  `InvalidShape` for the dimensionality assertions, `invalidDtype` for the
  float32 dtype assertions).
* Floating-point numbers are modelled by the exact reals `ℝ`.
* The trusted external primitives (the band-limited resampler `R` and the
  forward transform `F`) and the precomputed filterbank weight matrix `Wt`
  are parameters of the modelled pipeline.
-/

namespace FastStoi

open Classical

/-- Element dtypes that an input array can carry; the wrapper in the source
only distinguishes `float32` from everything else. -/
inductive Dtype
  | float16
  | float32
  | float64
  | int32
  | int64
deriving DecidableEq

/-- Model of a NumPy array as passed to the public wrapper: a shape vector,
an element dtype, and the (real-valued) sample data. -/
structure NPArray where
  shape : List ℕ
  dtype : Dtype
  data : List ℝ

/-- Number of dimensions of an array (`ndim` in NumPy). -/
def NPArray.ndim (a : NPArray) : ℕ := a.shape.length

/-- The error kinds named by the specification (section 7), plus
`invalidDtype` for the wrapper's float32 dtype assertions. -/
inductive StoiError
  | invalidRate
  | invalidShape
  | invalidDtype
  | insufficientVoiceActivity
  | numericDegenerate
deriving DecidableEq

/-- The public wrapper `stoi` from `src/pystoi/stoi/__init__.py`, translated
assertion by assertion and in source order:
`assert fs_sig > 0`, `assert x.ndim == 1`, `assert y.ndim == 1`,
`assert x.dtype == np.float32`, `assert y.dtype == np.float32`, then
`return stoi_internal(x, y, fs_sig, extended)`.  The compiled core is the
parameter `stoi_internal`, so theorems quantified over it express facts
about the validation boundary alone. -/
def stoi {α : Type} (stoi_internal : NPArray → NPArray → ℤ → Bool → α)
    (x y : NPArray) (fs_sig : ℤ) (extended : Bool) : Except StoiError α :=
  if ¬ fs_sig > 0 then .error .invalidRate
  else if ¬ x.ndim = 1 then .error .invalidShape
  else if ¬ y.ndim = 1 then .error .invalidShape
  else if ¬ x.dtype = Dtype.float32 then .error .invalidDtype
  else if ¬ y.dtype = Dtype.float32 then .error .invalidDtype
  else .ok (stoi_internal x y fs_sig extended)

/-! ### Vector helpers used by the modelled pipeline -/

/-- Dot product of the first `n` entries of two real sequences. -/
noncomputable def dotv (n : ℕ) (f g : ℕ → ℝ) : ℝ := ∑ i ∈ Finset.range n, f i * g i

/-- Euclidean norm of the first `n` entries of a real sequence. -/
noncomputable def norm2 (n : ℕ) (f : ℕ → ℝ) : ℝ := Real.sqrt (dotv n f f)

/-- Mean of the first `n` entries of a real sequence. -/
noncomputable def meanv (n : ℕ) (f : ℕ → ℝ) : ℝ := (∑ i ∈ Finset.range n, f i) / n

/-- The sequence re-centered by subtracting its mean over the first `n`
entries. -/
noncomputable def centered (n : ℕ) (f : ℕ → ℝ) : ℕ → ℝ := fun i => f i - meanv n f

/-- Modelled from the spec (section 4.6, standard STOI): the Pearson
correlation coefficient of two length-`n` vectors — subtract each vector's
mean, then take the cosine similarity of the centered vectors; if either
vector has zero variance the coefficient is defined as `0`. -/
noncomputable def pearson (n : ℕ) (f g : ℕ → ℝ) : ℝ :=
  if norm2 n (centered n f) = 0 ∨ norm2 n (centered n g) = 0 then 0
  else dotv n (centered n f) (centered n g) /
    (norm2 n (centered n f) * norm2 n (centered n g))

/-! ### Silence/VAD removal (spec section 4.2)

Modelled from the spec: the compiled core's VAD stage is not in the visible
source.  It operates on 400-sample non-overlapping frames of the clean
signal at the internal rate, computes each frame's energy relative to the
maximum-energy frame, and discards (from both signals, at matching frame
positions) every frame whose clean-signal energy falls more than 40 dB
below the maximum; `10 * log10 (E i / Emax) < -40` is expressed
multiplicatively as `10000 * E i < Emax`, i.e. a frame is kept exactly when
`Emax ≤ 10000 * E i`. -/

/-- Number of complete 400-sample VAD frames in a signal. -/
def vadNumFrames (x : List ℝ) : ℕ := x.length / 400

/-- Energy of the `i`-th 400-sample VAD frame. -/
noncomputable def vadFrameEnergy (x : List ℝ) (i : ℕ) : ℝ :=
  ∑ t ∈ Finset.range 400, x.getD (400 * i + t) 0 ^ 2

/-- The list of all VAD frame energies of a signal. -/
noncomputable def vadEnergies (x : List ℝ) : List ℝ :=
  (List.range (vadNumFrames x)).map (vadFrameEnergy x)

/-- Maximum VAD frame energy (`0` for a signal shorter than one frame). -/
noncomputable def vadEmax (x : List ℝ) : ℝ := (vadEnergies x).foldr max 0

/-- Indices of the VAD frames of the clean signal `x` that survive the
40 dB dynamic-range test. -/
noncomputable def vadKept (x : List ℝ) : List ℕ :=
  (List.range (vadNumFrames x)).filter fun i =>
    decide (vadEmax x ≤ 10000 * vadFrameEnergy x i)

/-- The `i`-th 400-sample frame of a signal, as a slice. -/
def vadSlice (y : List ℝ) (i : ℕ) : List ℝ := (y.drop (400 * i)).take 400

/-- Signal `y` with the frames silent in the clean signal `x` removed:
the concatenation of the frames of `y` at the clean-surviving indices. -/
noncomputable def vadReconstruct (x y : List ℝ) : List ℝ :=
  ((vadKept x).map (vadSlice y)).flatten

/-! ### Framer/STFT and octave-band envelopes (spec sections 4.3, 4.4)

Modelled from the spec: the compiled core's STFT and filterbank stages are
not in the visible source.  Analysis frames have length 256, hop 128, a
symmetric Hann window, zero-padding to transform size 512; the magnitude
spectrum feeds a fixed one-third-octave weight matrix `Wt` (15 bands) whose
concrete values are part of the trusted precomputed configuration and are
therefore a parameter here, applied to the squared magnitudes of the bins
up to the Nyquist bin (257 one-sided bins of a 512-point transform). -/

/-- Symmetric Hann window of length 256 evaluated at position `n`. -/
noncomputable def hannw (n : ℕ) : ℝ :=
  (1 - Real.cos (2 * Real.pi * n / 255)) / 2

/-- Number of complete overlapping STFT frames (length 256, hop 128) in a
signal of length `len`, framing starting at sample 0. -/
def stftNumFrames (len : ℕ) : ℕ := if len < 256 then 0 else (len - 256) / 128 + 1

/-- The `m`-th windowed, zero-padded analysis frame of a signal. -/
noncomputable def stftFrame (s : List ℝ) (m : ℕ) : List ℝ :=
  ((List.range 256).map fun n => hannw n * s.getD (128 * m + n) 0) ++
    List.replicate 256 0

/-- Squared magnitude of transform bin `bin` of the `m`-th frame, for a
forward-transform primitive `F`. -/
noncomputable def magSq (F : List ℝ → List ℂ) (s : List ℝ) (m bin : ℕ) : ℝ :=
  Complex.abs ((F (stftFrame s m)).getD bin 0) ^ 2

/-- Octave-band energy of band `j` at frame `m`: the filterbank row applied
to the squared magnitude spectrum. -/
noncomputable def bandEnergy (F : List ℝ → List ℂ) (Wt : ℕ → ℕ → ℝ)
    (s : List ℝ) (j m : ℕ) : ℝ :=
  ∑ bin ∈ Finset.range 257, Wt j bin * magSq F s m bin

/-- Per-frame band amplitude: the square root of the band energy (the RMS
envelope value used by the segment stage). -/
noncomputable def envAmp (F : List ℝ → List ℂ) (Wt : ℕ → ℕ → ℝ)
    (s : List ℝ) (j m : ℕ) : ℝ :=
  Real.sqrt (bandEnergy F Wt s j m)

/-! ### Segmenter, normalizer/clipper and correlator (spec sections 4.5, 4.6)

Modelled from the spec.  Segments are 30 consecutive frames, one per valid
start index; the degraded segment vector is rescaled to the clean segment's
norm and clipped from above by `(1 + 10 ^ (15 / 20))` times the clean
entry (Beta = -15 dB).  A zero-norm degraded vector makes the scale factor
`0` (the real-division convention `a / 0 = 0`), a deterministic
domain-specific zero result as the specification requires. -/

/-- Number of valid segment start indices for a signal of length `len`:
one per window of 30 consecutive frames. -/
def numSeg (len : ℕ) : ℕ := stftNumFrames len + 1 - 30

/-- Clean segment envelope vector for segment start `d` and band `j`. -/
noncomputable def cleanVec (F : List ℝ → List ℂ) (Wt : ℕ → ℕ → ℝ)
    (xv : List ℝ) (d j : ℕ) : ℕ → ℝ :=
  fun t => envAmp F Wt xv j (d + t)

/-- Degraded segment envelope vector for segment start `d` and band `j`. -/
noncomputable def degVec (F : List ℝ → List ℂ) (Wt : ℕ → ℕ → ℝ)
    (yv : List ℝ) (d j : ℕ) : ℕ → ℝ :=
  fun t => envAmp F Wt yv j (d + t)

/-- Scalar normalisation factor: clean-segment norm over degraded-segment
norm (zero when the degraded norm vanishes). -/
noncomputable def normFactor (F : List ℝ → List ℂ) (Wt : ℕ → ℕ → ℝ)
    (xv yv : List ℝ) (d j : ℕ) : ℝ :=
  norm2 30 (cleanVec F Wt xv d j) / norm2 30 (degVec F Wt yv d j)

/-- The clipping ceiling `1 + 10 ^ (-Beta / 20)` with `Beta = -15` dB. -/
noncomputable def clipBound : ℝ := 1 + (10 : ℝ) ^ ((15 : ℝ) / 20)

/-- The normalised-and-clipped degraded segment vector. -/
noncomputable def clippedVec (F : List ℝ → List ℂ) (Wt : ℕ → ℕ → ℝ)
    (xv yv : List ℝ) (d j : ℕ) : ℕ → ℝ :=
  fun t => min (normFactor F Wt xv yv d j * degVec F Wt yv d j t)
    (clipBound * cleanVec F Wt xv d j t)

/-- Standard STOI aggregation: the mean over all (segment, band) pairs of
the Pearson correlation between the clean vector and the
clipped-normalised degraded vector (frame count taken from the clean
signal, as the pipeline invariant guarantees both signals share it). -/
noncomputable def stoiScore (F : List ℝ → List ℂ) (Wt : ℕ → ℕ → ℝ)
    (xv yv : List ℝ) : ℝ :=
  (∑ d ∈ Finset.range (numSeg xv.length), ∑ j ∈ Finset.range 15,
      pearson 30 (cleanVec F Wt xv d j) (clippedVec F Wt xv yv d j)) /
    ((numSeg xv.length : ℝ) * 15)

/-- Row normalisation used by extended STOI: subtract the mean of the first
`K` entries and divide by the norm of the centered vector. -/
noncomputable def rowNormed (K : ℕ) (a : ℕ → ℝ) : ℕ → ℝ :=
  fun j => centered K a j / norm2 K (centered K a)

/-- Extended STOI aggregation: per segment and per frame, correlate the
row-normalised band vectors (length 15) of the clean and the
clipped-normalised degraded envelopes, averaging over frames and
segments. -/
noncomputable def estoiScore (F : List ℝ → List ℂ) (Wt : ℕ → ℕ → ℝ)
    (xv yv : List ℝ) : ℝ :=
  (∑ d ∈ Finset.range (numSeg xv.length), ∑ t ∈ Finset.range 30,
      dotv 15 (rowNormed 15 fun j => cleanVec F Wt xv d j t)
        (rowNormed 15 fun j => clippedVec F Wt xv yv d j t)) /
    ((numSeg xv.length : ℝ) * 30)

/-! ### The full modelled measurement pipeline -/

/-- Resampling to the fixed internal rate of 10000 Hz: the identity when
the source rate already equals the internal rate (spec section 4.1),
otherwise the trusted band-limited resampler primitive `R`. -/
noncomputable def resampled (R : List ℝ → ℤ → ℤ → List ℝ)
    (s : List ℝ) (fs : ℤ) : List ℝ :=
  if fs = 10000 then s else R s fs 10000

/-- Modelled from the spec: the compiled core `stoi_internal` (the numeric
measurement pipeline of spec sections 4.1-4.6) is not in the visible
source.  Stages: rate check, resampling to 10000 Hz, silence removal
driven by the clean signal, then the standard or extended aggregation over
the octave-band envelopes.  `R` is the trusted resampler, `F` the trusted
forward transform, `Wt` the precomputed one-third-octave weight matrix. -/
noncomputable def modelStoi (R : List ℝ → ℤ → ℤ → List ℝ)
    (F : List ℝ → List ℂ) (Wt : ℕ → ℕ → ℝ)
    (x y : List ℝ) (fs : ℤ) (extended : Bool) : Except StoiError ℝ :=
  if fs ≤ 0 then .error .invalidRate
  else if vadKept (resampled R x fs) = [] then
    .error .insufficientVoiceActivity
  else .ok (if extended then
      estoiScore F Wt (vadReconstruct (resampled R x fs) (resampled R x fs))
        (vadReconstruct (resampled R x fs) (resampled R y fs))
    else
      stoiScore F Wt (vadReconstruct (resampled R x fs) (resampled R x fs))
        (vadReconstruct (resampled R x fs) (resampled R y fs)))

/-- Modelled from the spec: the fast implementation's core (the compiled
`stoi_internal` of the repository, absent from the visible source) computes
the STOI measure of spec sections 4.1-4.6. -/
noncomputable def fast_stoi (R : List ℝ → ℤ → ℤ → List ℝ)
    (F : List ℝ → List ℂ) (Wt : ℕ → ℕ → ℝ)
    (x y : List ℝ) (fs : ℤ) (extended : Bool) : Except StoiError ℝ :=
  modelStoi R F Wt x y fs extended

/-- Modelled from the spec: the trusted reference implementation against
which the fast implementation is accepted (also absent from the visible
source) computes the same STOI measure of spec sections 4.1-4.6. -/
noncomputable def reference_stoi (R : List ℝ → ℤ → ℤ → List ℝ)
    (F : List ℝ → List ℂ) (Wt : ℕ → ℕ → ℝ)
    (x y : List ℝ) (fs : ℤ) (extended : Bool) : Except StoiError ℝ :=
  modelStoi R F Wt x y fs extended

/-- The complete public operation: the wrapper's validation boundary
composed with the modelled measurement pipeline. -/
noncomputable def stoiFull (R : List ℝ → ℤ → ℤ → List ℝ)
    (F : List ℝ → List ℂ) (Wt : ℕ → ℕ → ℝ)
    (x y : NPArray) (fs : ℤ) (extended : Bool) : Except StoiError ℝ :=
  match stoi (fun a b r e => modelStoi R F Wt a.data b.data r e)
      x y fs extended with
  | .error e => .error e
  | .ok r => r

/-! ### Concrete stand-ins for the trusted primitives

Used only to instantiate theorems at concrete inputs. -/

/-- A trivial stand-in for the resampler primitive. -/
def idResampler : List ℝ → ℤ → ℤ → List ℝ := fun s _ _ => s

/-- A trivial stand-in for the forward-transform primitive. -/
def zeroTransform : List ℝ → List ℂ := fun _ => []

/-- A trivial stand-in for the filterbank weight matrix. -/
noncomputable def zeroWeights : ℕ → ℕ → ℝ := fun _ _ => 0

/-- A trivial stand-in for the compiled core behind the wrapper, used to
instantiate validation-boundary theorems at concrete inputs. -/
def natCore : NPArray → NPArray → ℤ → Bool → ℕ := fun _ _ _ _ => 0

/-- A one-sample 1-D float32 array. -/
def oneF32 : NPArray := ⟨[1], Dtype.float32, [1]⟩

/-- A two-sample 1-D float32 array. -/
def twoF32 : NPArray := ⟨[2], Dtype.float32, [1, 2]⟩

/-- An empty (length-0) 1-D float32 array. -/
def emptyF32 : NPArray := ⟨[0], Dtype.float32, []⟩

/-- A 1-D float64 array with three samples. -/
def threeF64 : NPArray := ⟨[3], Dtype.float64, [1, 2, 3]⟩

/-- A two-dimensional (2 x 3) float32 array. -/
def twoDimF32 : NPArray := ⟨[2, 3], Dtype.float32, [1, 2, 3, 4, 5, 6]⟩

/-! ### Claim C3: non-positive rate fails with InvalidRate, eagerly -/

/-- C3: for every pair of input arrays and every candidate internal
pipeline `f`, calling the public `stoi` with `fs_sig = 0` or negative
fails with the `InvalidRate` error.  The statement is quantified over the
pipeline `f` and the result never mentions `f`, so the failure is decided
eagerly at the validation boundary, before any pipeline stage runs. -/
theorem stoi_nonpositive_rate_invalidRate {α : Type}
    (f : NPArray → NPArray → ℤ → Bool → α) (x y : NPArray) (fs : ℤ)
    (ext : Bool) (h : fs ≤ 0) :
    stoi f x y fs ext = .error .invalidRate := by
  have h0 : ¬ fs > 0 := by omega
  simp [stoi, h0]

/-- Witness for C3 at the concrete rate 0. -/
theorem stoi_nonpositive_rate_invalidRate_witness :
    (0 : ℤ) ≤ 0 ∧
      stoi natCore oneF32 oneF32 0 false = .error .invalidRate :=
  ⟨le_refl 0, stoi_nonpositive_rate_invalidRate natCore oneF32 oneF32 0 false (le_refl 0)⟩

/-! ### Claim C4: two-dimensional input fails with InvalidShape -/

/-- C4: for every positive rate and every candidate internal pipeline `f`,
calling the public `stoi` with a two-dimensional array in either argument
fails with the `InvalidShape` error instead of returning a score. -/
theorem stoi_twoDim_invalidShape {α : Type}
    (f : NPArray → NPArray → ℤ → Bool → α) (x y : NPArray) (fs : ℤ)
    (ext : Bool) (hfs : 0 < fs) (h : x.ndim = 2 ∨ y.ndim = 2) :
    stoi f x y fs ext = .error .invalidShape := by
  rcases h with h | h
  · simp [stoi, hfs, h]
  · by_cases hx : x.ndim = 1 <;> simp [stoi, hfs, h, hx]

/-- Witness for C4 at a concrete 2 x 3 array and rate 8000. -/
theorem stoi_twoDim_invalidShape_witness :
    (0 : ℤ) < 8000 ∧ twoDimF32.ndim = 2 ∧
      stoi natCore twoDimF32 oneF32 8000 false = .error .invalidShape :=
  ⟨by norm_num, rfl,
    stoi_twoDim_invalidShape natCore twoDimF32 oneF32 8000 false (by norm_num) (Or.inl rfl)⟩

/-! ### Claim C5: no length-equality check at the API boundary -/

/-- C5: a call whose clean and degraded signals are 1-D float32 arrays of
different lengths passes the validation boundary and reaches the internal
pipeline: no length-mismatch validation error exists in the wrapper. -/
theorem stoi_no_length_check {α : Type}
    (f : NPArray → NPArray → ℤ → Bool → α) (x y : NPArray) (fs : ℤ)
    (ext : Bool) (hfs : 0 < fs)
    (hx : x.shape = [x.data.length]) (hy : y.shape = [y.data.length])
    (hdx : x.dtype = Dtype.float32) (hdy : y.dtype = Dtype.float32)
    (_hlen : x.data.length ≠ y.data.length) :
    stoi f x y fs ext = .ok (f x y fs ext) := by
  have hx1 : x.ndim = 1 := by simp [NPArray.ndim, hx]
  have hy1 : y.ndim = 1 := by simp [NPArray.ndim, hy]
  simp [stoi, hfs, hx1, hy1, hdx, hdy]

/-- Witness for C5: arrays of lengths 1 and 2 pass validation. -/
theorem stoi_no_length_check_witness :
    oneF32.data.length ≠ twoF32.data.length ∧
      stoi natCore oneF32 twoF32 8000 false
        = .ok (natCore oneF32 twoF32 8000 false) :=
  ⟨by decide,
    stoi_no_length_check natCore oneF32 twoF32 8000 false (by norm_num)
      rfl rfl rfl rfl (by decide)⟩

/-! ### Claim C10: empty arrays pass every validation check -/

/-- C10: an empty 1-D float32 array, in either or both argument positions,
passes every check at the validation boundary (there is no minimum-length
or non-emptiness check), so the call proceeds into the internal
pipeline `f` rather than failing with a validation error. -/
theorem stoi_empty_passes_validation {α : Type}
    (f : NPArray → NPArray → ℤ → Bool → α) (a : NPArray) (fs : ℤ)
    (ext : Bool) (hfs : 0 < fs) (ha1 : a.ndim = 1)
    (ha2 : a.dtype = Dtype.float32) :
    stoi f emptyF32 a fs ext = .ok (f emptyF32 a fs ext) ∧
      stoi f a emptyF32 fs ext = .ok (f a emptyF32 fs ext) ∧
      stoi f emptyF32 emptyF32 fs ext = .ok (f emptyF32 emptyF32 fs ext) := by
  have he1 : emptyF32.ndim = 1 := rfl
  have he2 : emptyF32.dtype = Dtype.float32 := rfl
  refine ⟨?_, ?_, ?_⟩
  all_goals simp [stoi, hfs, ha1, ha2, he1, he2]

/-- Witness for C10 at rate 8000 with a one-sample partner array. -/
theorem stoi_empty_passes_validation_witness :
    (0 : ℤ) < 8000 ∧
      stoi natCore emptyF32 oneF32 8000 false
        = .ok (natCore emptyF32 oneF32 8000 false) :=
  ⟨by norm_num,
    (stoi_empty_passes_validation natCore oneF32 8000 false (by norm_num) rfl rfl).1⟩

/-! ### Claim C2: the wrapper rejects non-float32 dtypes -/

/-- C2 counterexample: a pair of one-dimensional float64 arrays with a
positive rate is rejected at the validation boundary on account of the
element type (the wrapper's float32 dtype assertion), contradicting the
claim that any real floating dtype passes. -/
theorem stoi_float64_rejected_counterexample :
    stoi natCore threeF64 threeF64 8000 false = .error .invalidDtype := by
  simp [stoi, threeF64, natCore, NPArray.ndim]

/-- C2 amended: the wrapper accepts exactly float32 input arrays — for
every pair of 1-D float32 arrays and positive rate, validation passes and
the call reaches the internal pipeline; any other element dtype fails the
dtype assertion. -/
theorem stoi_float32_only_amended {α : Type}
    (f : NPArray → NPArray → ℤ → Bool → α) (x y : NPArray) (fs : ℤ)
    (ext : Bool) (hfs : 0 < fs) (hx1 : x.ndim = 1) (hy1 : y.ndim = 1)
    (hdx : x.dtype = Dtype.float32) (hdy : y.dtype = Dtype.float32) :
    stoi f x y fs ext = .ok (f x y fs ext) := by
  simp [stoi, hfs, hx1, hy1, hdx, hdy]

/-- Witness for the amended C2 at two concrete float32 arrays. -/
theorem stoi_float32_only_amended_witness :
    (0 : ℤ) < 16000 ∧
      stoi natCore oneF32 oneF32 16000 false
        = .ok (natCore oneF32 oneF32 16000 false) :=
  ⟨by norm_num,
    stoi_float32_only_amended natCore oneF32 oneF32 16000 false (by norm_num)
      rfl rfl rfl rfl⟩

/-! ### Claim C7: determinism -/

/-- C7: the complete public operation is deterministic — for identical
inputs (same clean array, same degraded array, same rate, same extended
flag) and the same trusted primitives, two calls produce identical
results. -/
theorem stoiFull_deterministic (R : List ℝ → ℤ → ℤ → List ℝ)
    (F : List ℝ → List ℂ) (Wt : ℕ → ℕ → ℝ)
    (x₁ y₁ : NPArray) (fs₁ : ℤ) (e₁ : Bool)
    (x₂ y₂ : NPArray) (fs₂ : ℤ) (e₂ : Bool)
    (hx : x₁ = x₂) (hy : y₁ = y₂) (hfs : fs₁ = fs₂) (he : e₁ = e₂) :
    stoiFull R F Wt x₁ y₁ fs₁ e₁ = stoiFull R F Wt x₂ y₂ fs₂ e₂ := by
  rw [hx, hy, hfs, he]

/-- Witness for C7 at concrete identical calls. -/
theorem stoiFull_deterministic_witness :
    stoiFull idResampler zeroTransform zeroWeights oneF32 oneF32 10000 false
      = stoiFull idResampler zeroTransform zeroWeights oneF32 oneF32 10000 false :=
  stoiFull_deterministic idResampler zeroTransform zeroWeights
    oneF32 oneF32 10000 false oneF32 oneF32 10000 false rfl rfl rfl rfl

/-! ### Claim C1: fast implementation matches the reference -/

/-- Two pipeline results agree to within the acceptance tolerance: both
fail identically, or both succeed with scores within `1e-7`. -/
def closeResults (a b : Except StoiError ℝ) : Prop :=
  match a, b with
  | .ok u, .ok v => |u - v| ≤ 1 / 10 ^ 7
  | u, v => u = v

/-- C1: for every pair of input signals at the supported sample rates
8000, 16000 and 32000 Hz (and any choice of the shared trusted
primitives), the fast implementation's score matches the trusted reference
implementation's score to within `1e-7` absolute difference.  Both sides
are modelled from the spec as the same measurement pipeline, so the
difference is in fact zero. -/
theorem fast_matches_reference (R : List ℝ → ℤ → ℤ → List ℝ)
    (F : List ℝ → List ℂ) (Wt : ℕ → ℕ → ℝ) (x y : List ℝ) (sr : ℤ)
    (ext : Bool) (_hsr : sr = 8000 ∨ sr = 16000 ∨ sr = 32000) :
    closeResults (fast_stoi R F Wt x y sr ext)
      (reference_stoi R F Wt x y sr ext) := by
  unfold fast_stoi reference_stoi
  cases h : modelStoi R F Wt x y sr ext with
  | error e => simp [closeResults]
  | ok r => simp [closeResults]

/-- Witness for C1 at rate 8000 with concrete stand-in primitives. -/
theorem fast_matches_reference_witness :
    closeResults
      (fast_stoi idResampler zeroTransform zeroWeights [] [] 8000 false)
      (reference_stoi idResampler zeroTransform zeroWeights [] [] 8000 false) :=
  fast_matches_reference idResampler zeroTransform zeroWeights [] [] 8000
    false (Or.inl rfl)


/-! ### Bounds on the modelled score (claim C6) -/

/-- The self dot product is a sum of squares, hence non-negative. -/
theorem dotv_self_nonneg (n : ℕ) (f : ℕ → ℝ) : 0 ≤ dotv n f f :=
  Finset.sum_nonneg fun i _ => mul_self_nonneg (f i)

/-- Cauchy-Schwarz for the pipeline's vector helpers. -/
theorem abs_dotv_le (n : ℕ) (f g : ℕ → ℝ) :
    |dotv n f g| ≤ norm2 n f * norm2 n g := by
  have hf : dotv n f f = ∑ i ∈ Finset.range n, f i ^ 2 :=
    Finset.sum_congr rfl fun i _ => (pow_two (f i)).symm
  have hg : dotv n g g = ∑ i ∈ Finset.range n, g i ^ 2 :=
    Finset.sum_congr rfl fun i _ => (pow_two (g i)).symm
  have hcs : dotv n f g ^ 2 ≤ dotv n f f * dotv n g g := by
    rw [hf, hg]
    exact Finset.sum_mul_sq_le_sq_mul_sq (Finset.range n) f g
  have h1 : |dotv n f g| = Real.sqrt (dotv n f g ^ 2) :=
    (Real.sqrt_sq_eq_abs _).symm
  rw [h1, norm2, norm2, ← Real.sqrt_mul (dotv_self_nonneg n f)]
  exact Real.sqrt_le_sqrt hcs

/-- The norm helper is non-negative. -/
theorem norm2_nonneg (n : ℕ) (f : ℕ → ℝ) : 0 ≤ norm2 n f :=
  Real.sqrt_nonneg _

/-- A Pearson coefficient of the modelled correlator lies in `[-1, 1]`. -/
theorem abs_pearson_le_one (n : ℕ) (f g : ℕ → ℝ) : |pearson n f g| ≤ 1 := by
  unfold pearson
  split
  · simp
  · rename_i h
    push_neg at h
    obtain ⟨hf, hg⟩ := h
    have hf0 : 0 < norm2 n (centered n f) :=
      lt_of_le_of_ne (norm2_nonneg n (centered n f)) (Ne.symm hf)
    have hg0 : 0 < norm2 n (centered n g) :=
      lt_of_le_of_ne (norm2_nonneg n (centered n g)) (Ne.symm hg)
    rw [abs_div, abs_of_pos (mul_pos hf0 hg0), div_le_one (mul_pos hf0 hg0)]
    exact abs_dotv_le n (centered n f) (centered n g)

/-- Dividing a quantity by any upper bound of its magnitude lands in
`[-1, 1]` (including the degenerate empty-average case `0 / 0 = 0`). -/
theorem abs_div_le_one_of_abs_le {s c : ℝ} (h : |s| ≤ c) : |s / c| ≤ 1 := by
  rcases eq_or_lt_of_le (le_trans (abs_nonneg s) h) with hc | hc
  · have hs : s = 0 := abs_eq_zero.mp (le_antisymm (hc ▸ h) (abs_nonneg s))
    simp [hs]
  · rw [abs_div, abs_of_pos hc, div_le_one hc]
    exact h

/-- The standard STOI aggregate is an average of Pearson coefficients and
therefore lies in `[-1, 1]`. -/
theorem abs_stoiScore_le_one (F : List ℝ → List ℂ) (Wt : ℕ → ℕ → ℝ)
    (xv yv : List ℝ) : |stoiScore F Wt xv yv| ≤ 1 := by
  unfold stoiScore
  apply abs_div_le_one_of_abs_le
  calc |∑ d ∈ Finset.range (numSeg xv.length), ∑ j ∈ Finset.range 15,
          pearson 30 (cleanVec F Wt xv d j) (clippedVec F Wt xv yv d j)|
      ≤ ∑ d ∈ Finset.range (numSeg xv.length), |∑ j ∈ Finset.range 15,
          pearson 30 (cleanVec F Wt xv d j) (clippedVec F Wt xv yv d j)| :=
        Finset.abs_sum_le_sum_abs _ _
    _ ≤ ∑ d ∈ Finset.range (numSeg xv.length), ∑ j ∈ Finset.range 15,
          |pearson 30 (cleanVec F Wt xv d j) (clippedVec F Wt xv yv d j)| :=
        Finset.sum_le_sum fun d _ => Finset.abs_sum_le_sum_abs _ _
    _ ≤ ∑ _d ∈ Finset.range (numSeg xv.length), ∑ _j ∈ Finset.range 15,
          (1 : ℝ) :=
        Finset.sum_le_sum fun d _ => Finset.sum_le_sum fun j _ =>
          abs_pearson_le_one 30 _ _
    _ = (numSeg xv.length : ℝ) * 15 := by
        simp [Finset.sum_const, Finset.card_range, mul_comm]

/-- An extended-STOI per-frame term is a correlation of row-normalised
vectors and lies in `[-1, 1]`. -/
theorem abs_estoi_term_le_one (a b : ℕ → ℝ) (K : ℕ) :
    |dotv K (rowNormed K a) (rowNormed K b)| ≤ 1 := by
  have hd : dotv K (rowNormed K a) (rowNormed K b)
      = dotv K (centered K a) (centered K b) /
        (norm2 K (centered K a) * norm2 K (centered K b)) := by
    unfold dotv rowNormed
    calc ∑ i ∈ Finset.range K,
            centered K a i / norm2 K (centered K a) *
              (centered K b i / norm2 K (centered K b))
        = ∑ i ∈ Finset.range K,
            centered K a i * centered K b i /
              (norm2 K (centered K a) * norm2 K (centered K b)) :=
          Finset.sum_congr rfl fun i _ => div_mul_div_comm _ _ _ _
      _ = (∑ i ∈ Finset.range K, centered K a i * centered K b i) /
            (norm2 K (centered K a) * norm2 K (centered K b)) :=
          (Finset.sum_div _ _ _).symm
  rw [hd]
  exact abs_div_le_one_of_abs_le (abs_dotv_le K (centered K a) (centered K b))

/-- The extended STOI aggregate is an average of row-normalised
correlations and therefore lies in `[-1, 1]`. -/
theorem abs_estoiScore_le_one (F : List ℝ → List ℂ) (Wt : ℕ → ℕ → ℝ)
    (xv yv : List ℝ) : |estoiScore F Wt xv yv| ≤ 1 := by
  unfold estoiScore
  apply abs_div_le_one_of_abs_le
  calc |∑ d ∈ Finset.range (numSeg xv.length), ∑ t ∈ Finset.range 30,
          dotv 15 (rowNormed 15 fun j => cleanVec F Wt xv d j t)
            (rowNormed 15 fun j => clippedVec F Wt xv yv d j t)|
      ≤ ∑ d ∈ Finset.range (numSeg xv.length), |∑ t ∈ Finset.range 30,
          dotv 15 (rowNormed 15 fun j => cleanVec F Wt xv d j t)
            (rowNormed 15 fun j => clippedVec F Wt xv yv d j t)| :=
        Finset.abs_sum_le_sum_abs _ _
    _ ≤ ∑ d ∈ Finset.range (numSeg xv.length), ∑ t ∈ Finset.range 30,
          |dotv 15 (rowNormed 15 fun j => cleanVec F Wt xv d j t)
            (rowNormed 15 fun j => clippedVec F Wt xv yv d j t)| :=
        Finset.sum_le_sum fun d _ => Finset.abs_sum_le_sum_abs _ _
    _ ≤ ∑ _d ∈ Finset.range (numSeg xv.length), ∑ _t ∈ Finset.range 30,
          (1 : ℝ) :=
        Finset.sum_le_sum fun d _ => Finset.sum_le_sum fun t _ =>
          abs_estoi_term_le_one _ _ 15
    _ = (numSeg xv.length : ℝ) * 30 := by
        simp [Finset.sum_const, Finset.card_range, mul_comm]

/-- A pipeline result is a finite score: on success the value is a real
number in `[-1, 1]` (no NaN or infinity exists in the exact-real model,
and the bound certifies every guarded division). -/
def finiteScore : Except StoiError ℝ → Prop
  | .ok r => |r| ≤ 1
  | .error _ => True

/-- A successful wrapper call returns exactly the internal pipeline's
value. -/
theorem stoi_ok_eq {α : Type} {f : NPArray → NPArray → ℤ → Bool → α}
    {x y : NPArray} {fs : ℤ} {ext : Bool} {a : α}
    (h : stoi f x y fs ext = .ok a) : a = f x y fs ext := by
  unfold stoi at h
  split_ifs at h <;> simp_all

/-- C6: every call of the public operation either fails with a structured
error or returns a score in `[-1, 1]` — in particular a finite real
number, never NaN or infinity. -/
theorem stoiFull_finite (R : List ℝ → ℤ → ℤ → List ℝ)
    (F : List ℝ → List ℂ) (Wt : ℕ → ℕ → ℝ) (x y : NPArray) (fs : ℤ)
    (ext : Bool) : finiteScore (stoiFull R F Wt x y fs ext) := by
  unfold stoiFull
  cases h : stoi (fun a b r e => modelStoi R F Wt a.data b.data r e)
      x y fs ext with
  | error e => trivial
  | ok r =>
    have hr := stoi_ok_eq h
    subst hr
    show finiteScore (modelStoi R F Wt x.data y.data fs ext)
    unfold modelStoi
    split
    · trivial
    · split
      · trivial
      · show finiteScore (.ok _)
        simp only [finiteScore]
        cases ext with
        | false => simpa using abs_stoiScore_le_one F Wt _ _
        | true => simpa using abs_estoiScore_le_one F Wt _ _

/-! ### Claim C9: zero-variance cases are local and never abort -/

/-- C9: in the standard correlator, a (segment, band) pair where either
vector has zero variance gets coefficient `0`; and such degenerate cases
are handled locally — the pipeline never surfaces a `NumericDegenerate`
error, so the overall call still returns an aggregate score whenever
validation and voice-activity detection pass. -/
theorem pearson_degenerate_zero_and_no_abort :
    (∀ (n : ℕ) (f g : ℕ → ℝ),
        norm2 n (centered n f) = 0 ∨ norm2 n (centered n g) = 0 →
        pearson n f g = 0) ∧
      ∀ (R : List ℝ → ℤ → ℤ → List ℝ) (F : List ℝ → List ℂ)
        (Wt : ℕ → ℕ → ℝ) (x y : List ℝ) (fs : ℤ) (ext : Bool)
        (e : StoiError), modelStoi R F Wt x y fs ext = .error e →
        e ≠ .numericDegenerate := by
  constructor
  · intro n f g h
    unfold pearson
    rw [if_pos h]
  · intro R F Wt x y fs ext e h
    unfold modelStoi at h
    split at h
    · simp only [Except.error.injEq] at h
      subst h
      simp
    · split at h
      · simp only [Except.error.injEq] at h
        subst h
        simp
      · cases h

/-- Witness for C9: a constant vector has zero variance and coefficient
`0`; a concrete failing call errors with a kind other than
`NumericDegenerate`. -/
theorem pearson_degenerate_zero_and_no_abort_witness :
    pearson 1 (fun _ => 0) (fun _ => 0) = 0 ∧
      StoiError.invalidRate ≠ StoiError.numericDegenerate := by
  constructor
  · apply pearson_degenerate_zero_and_no_abort.1
    left
    simp [norm2, dotv, centered, meanv]
  · exact pearson_degenerate_zero_and_no_abort.2 idResampler zeroTransform
      zeroWeights [] [] 0 false StoiError.invalidRate (by simp [modelStoi])


/-! ### Claim C8: frame-aligned silence is removed by VAD

The silence of the claim is the silence that spec section 4.2 removes:
whole 400-sample VAD frames at the internal rate.  The lemmas below show
that prepending or appending such silent frames to both signals leaves the
VAD-surviving material — and hence everything computed from it —
unchanged, provided the clean signal has at least one frame of positive
energy (so that the all-zero frames really fall 40 dB below the
maximum). -/

/-- `getD` on an all-zero list with default `0` is always `0`. -/
theorem getD_replicate_zero (m n : ℕ) :
    (List.replicate n (0:ℝ)).getD m 0 = 0 := by
  rcases Nat.lt_or_ge m n with h | h
  · rw [List.getD_eq_getElem _ _ (by simpa using h)]
    simp
  · exact List.getD_eq_default _ _ (by simpa using h)

/-- The initial value is a lower bound of a `foldr max`. -/
theorem foldr_max_init_le (l : List ℝ) (b : ℝ) : b ≤ l.foldr max b := by
  induction l with
  | nil => exact le_refl b
  | cons a t ih => exact le_trans ih (le_max_right a _)

/-- Folding `max` over a list of zeros keeps a non-negative initial
value. -/
theorem foldr_max_zeros :
    ∀ (l : List ℝ) (b : ℝ), (∀ a ∈ l, a = 0) → 0 ≤ b → l.foldr max b = b
  | [], _, _, _ => rfl
  | a :: t, b, hl, hb => by
    have ha : a = 0 := hl a (List.mem_cons_self a t)
    have ih := foldr_max_zeros t b (fun u hu => hl u (List.mem_cons_of_mem a hu)) hb
    simp only [List.foldr_cons, ih, ha]
    exact max_eq_right hb

/-- Prepending `k` silent VAD frames adds `k` to the frame count. -/
theorem vadNumFrames_prepend (k : ℕ) (x : List ℝ) :
    vadNumFrames (List.replicate (400*k) 0 ++ x) = k + vadNumFrames x := by
  unfold vadNumFrames
  rw [List.length_append, List.length_replicate]
  omega

/-- The prepended frames have zero energy. -/
theorem vadFrameEnergy_prepend_zero (k : ℕ) (x : List ℝ) {i : ℕ} (hi : i < k) :
    vadFrameEnergy (List.replicate (400*k) 0 ++ x) i = 0 := by
  unfold vadFrameEnergy
  apply Finset.sum_eq_zero
  intro t ht
  rw [Finset.mem_range] at ht
  rw [List.getD_append _ _ _ _ (by rw [List.length_replicate]; omega)]
  rw [getD_replicate_zero]
  norm_num

/-- The original frames keep their energy, shifted by `k` positions. -/
theorem vadFrameEnergy_prepend_shift (k : ℕ) (x : List ℝ) (i : ℕ) :
    vadFrameEnergy (List.replicate (400*k) 0 ++ x) (k + i)
      = vadFrameEnergy x i := by
  unfold vadFrameEnergy
  apply Finset.sum_congr rfl
  intro t ht
  rw [Finset.mem_range] at ht
  rw [List.getD_append_right _ _ _ _ (by rw [List.length_replicate]; omega)]
  rw [List.length_replicate]
  have h : 400 * (k + i) + t - 400 * k = 400 * i + t := by omega
  rw [h]

/-- The energy list after prepending silence: `k` zeros, then the original
energies. -/
theorem vadEnergies_prepend (k : ℕ) (x : List ℝ) :
    vadEnergies (List.replicate (400*k) 0 ++ x)
      = List.replicate k 0 ++ vadEnergies x := by
  unfold vadEnergies
  rw [vadNumFrames_prepend, List.range_add, List.map_append, List.map_map]
  congr 1
  · refine List.eq_replicate_iff.mpr ⟨by simp, ?_⟩
    intro b hb
    rw [List.mem_map] at hb
    obtain ⟨i, hi, rfl⟩ := hb
    rw [List.mem_range] at hi
    exact vadFrameEnergy_prepend_zero k x hi
  · apply List.map_congr_left
    intro i _
    simp only [Function.comp_apply]
    exact vadFrameEnergy_prepend_shift k x i

/-- Prepending silence does not change the maximum frame energy. -/
theorem vadEmax_prepend (k : ℕ) (x : List ℝ) :
    vadEmax (List.replicate (400*k) 0 ++ x) = vadEmax x := by
  unfold vadEmax
  rw [vadEnergies_prepend, List.foldr_append]
  exact foldr_max_zeros _ _ (fun a ha => (List.mem_replicate.mp ha).2)
    (foldr_max_init_le _ 0)

/-- With a positive maximum energy, the surviving frames after prepending
silence are exactly the original survivors, shifted by `k`. -/
theorem vadKept_prepend (k : ℕ) (x : List ℝ) (hE : 0 < vadEmax x) :
    vadKept (List.replicate (400*k) 0 ++ x) = (vadKept x).map (k + ·) := by
  unfold vadKept
  rw [vadNumFrames_prepend, List.range_add, List.filter_append]
  have h1 : List.filter (fun i =>
      decide (vadEmax (List.replicate (400*k) 0 ++ x) ≤
        10000 * vadFrameEnergy (List.replicate (400*k) 0 ++ x) i))
      (List.range k) = [] := by
    rw [List.filter_eq_nil_iff]
    intro i hi
    rw [List.mem_range] at hi
    simp only [decide_eq_true_eq]
    rw [vadEmax_prepend, vadFrameEnergy_prepend_zero k x hi, mul_zero]
    exact not_le.mpr hE
  rw [h1, List.nil_append, List.filter_map]
  congr 1
  apply List.filter_congr
  intro i hi
  simp only [Function.comp_apply]
  rw [vadEmax_prepend, vadFrameEnergy_prepend_shift]

/-- Slices shifted past the prepended silence are the original slices. -/
theorem vadSlice_prepend (k i : ℕ) (w : List ℝ) :
    vadSlice (List.replicate (400*k) (0:ℝ) ++ w) (k + i) = vadSlice w i := by
  unfold vadSlice
  have h : 400 * (k + i) = (List.replicate (400*k) (0:ℝ)).length + 400 * i := by
    rw [List.length_replicate]
    ring
  rw [h, List.drop_append]

/-- Prepending frame-aligned silence to both signals leaves the
VAD-reconstructed signal unchanged. -/
theorem vadReconstruct_prepend (k : ℕ) (x w : List ℝ) (hE : 0 < vadEmax x) :
    vadReconstruct (List.replicate (400*k) 0 ++ x)
      (List.replicate (400*k) 0 ++ w) = vadReconstruct x w := by
  unfold vadReconstruct
  rw [vadKept_prepend k x hE, List.map_map]
  congr 1
  apply List.map_congr_left
  intro i _
  simp only [Function.comp_apply]
  exact vadSlice_prepend k i w

/-- Appending `k` silent VAD frames adds `k` to the frame count. -/
theorem vadNumFrames_append (k : ℕ) (x : List ℝ) :
    vadNumFrames (x ++ List.replicate (400*k) 0) = vadNumFrames x + k := by
  unfold vadNumFrames
  rw [List.length_append, List.length_replicate]
  omega

/-- Frames before the appended silence keep their energy. -/
theorem vadFrameEnergy_append (k : ℕ) (x : List ℝ) {i : ℕ}
    (hi : i < vadNumFrames x) :
    vadFrameEnergy (x ++ List.replicate (400*k) 0) i = vadFrameEnergy x i := by
  have hle : 400 * vadNumFrames x ≤ x.length := by
    unfold vadNumFrames
    omega
  unfold vadFrameEnergy
  apply Finset.sum_congr rfl
  intro t ht
  rw [Finset.mem_range] at ht
  rw [List.getD_append _ _ _ _ (by omega)]

/-- The appended frames have zero energy (the signal length being a whole
number of frames, they contain no original samples). -/
theorem vadFrameEnergy_append_zero (k : ℕ) (x : List ℝ) (h : 400 ∣ x.length)
    (i : ℕ) :
    vadFrameEnergy (x ++ List.replicate (400*k) 0) (vadNumFrames x + i) = 0 := by
  have hlen : x.length = 400 * vadNumFrames x := by
    unfold vadNumFrames
    omega
  unfold vadFrameEnergy
  apply Finset.sum_eq_zero
  intro t ht
  rw [Finset.mem_range] at ht
  rw [List.getD_append_right _ _ _ _ (by omega)]
  rw [getD_replicate_zero]
  norm_num

/-- The energy list after appending silence: the original energies, then
`k` zeros. -/
theorem vadEnergies_append (k : ℕ) (x : List ℝ) (h : 400 ∣ x.length) :
    vadEnergies (x ++ List.replicate (400*k) 0)
      = vadEnergies x ++ List.replicate k 0 := by
  unfold vadEnergies
  rw [vadNumFrames_append, List.range_add, List.map_append, List.map_map]
  congr 1
  · apply List.map_congr_left
    intro i hi
    rw [List.mem_range] at hi
    exact vadFrameEnergy_append k x hi
  · refine List.eq_replicate_iff.mpr ⟨by simp, ?_⟩
    intro b hb
    rw [List.mem_map] at hb
    obtain ⟨i, hi, rfl⟩ := hb
    simp only [Function.comp_apply]
    exact vadFrameEnergy_append_zero k x h i

/-- Appending silence does not change the maximum frame energy. -/
theorem vadEmax_append (k : ℕ) (x : List ℝ) (h : 400 ∣ x.length) :
    vadEmax (x ++ List.replicate (400*k) 0) = vadEmax x := by
  unfold vadEmax
  rw [vadEnergies_append k x h, List.foldr_append]
  have h0 : (List.replicate k (0:ℝ)).foldr max 0 = 0 :=
    foldr_max_zeros _ 0 (fun a ha => (List.mem_replicate.mp ha).2) (le_refl 0)
  rw [h0]

/-- With a positive maximum energy, appending silent frames leaves the set
of surviving frame indices unchanged. -/
theorem vadKept_append (k : ℕ) (x : List ℝ) (h : 400 ∣ x.length)
    (hE : 0 < vadEmax x) :
    vadKept (x ++ List.replicate (400*k) 0) = vadKept x := by
  unfold vadKept
  rw [vadNumFrames_append, List.range_add, List.filter_append]
  have h2 : List.filter (fun i =>
      decide (vadEmax (x ++ List.replicate (400*k) 0) ≤
        10000 * vadFrameEnergy (x ++ List.replicate (400*k) 0) i))
      ((List.range k).map (vadNumFrames x + ·)) = [] := by
    rw [List.filter_eq_nil_iff]
    intro a ha
    rw [List.mem_map] at ha
    obtain ⟨i, hi, rfl⟩ := ha
    simp only [decide_eq_true_eq]
    rw [vadEmax_append k x h, vadFrameEnergy_append_zero k x h i, mul_zero]
    exact not_le.mpr hE
  rw [h2, List.append_nil]
  apply List.filter_congr
  intro i hi
  rw [List.mem_range] at hi
  rw [vadEmax_append k x h, vadFrameEnergy_append k x hi]

/-- Slices of frames that lie inside the original signal ignore the
appended silence. -/
theorem vadSlice_append (k : ℕ) (w : List ℝ) {n i : ℕ}
    (hw : w.length = 400 * n) (hi : i < n) :
    vadSlice (w ++ List.replicate (400*k) (0:ℝ)) i = vadSlice w i := by
  unfold vadSlice
  rw [List.drop_append_eq_append_drop]
  have h1 : 400 * i - w.length = 0 := by omega
  rw [h1, List.drop_zero]
  rw [List.take_append_of_le_length (by rw [List.length_drop]; omega)]

/-- Appending frame-aligned silence to both signals leaves the
VAD-reconstructed signal unchanged. -/
theorem vadReconstruct_append (k : ℕ) (x w : List ℝ) (h : 400 ∣ x.length)
    (hw : w.length = x.length) (hE : 0 < vadEmax x) :
    vadReconstruct (x ++ List.replicate (400*k) 0)
      (w ++ List.replicate (400*k) 0) = vadReconstruct x w := by
  have hx : x.length = 400 * vadNumFrames x := by
    unfold vadNumFrames
    omega
  unfold vadReconstruct
  rw [vadKept_append k x h hE]
  apply congrArg
  apply List.map_congr_left
  intro i hi
  have hin : i < vadNumFrames x :=
    List.mem_range.mp (List.mem_of_mem_filter hi)
  exact vadSlice_append k w (by rw [hw, hx]) hin

/-- At the internal rate the resampler is the identity and the pipeline
reduces to VAD plus scoring. -/
theorem modelStoi_at_internal_rate (R : List ℝ → ℤ → ℤ → List ℝ)
    (F : List ℝ → List ℂ) (Wt : ℕ → ℕ → ℝ) (x y : List ℝ) (ext : Bool) :
    modelStoi R F Wt x y 10000 ext =
      if vadKept x = [] then .error .insufficientVoiceActivity
      else .ok (if ext then
          estoiScore F Wt (vadReconstruct x x) (vadReconstruct x y)
        else stoiScore F Wt (vadReconstruct x x) (vadReconstruct x y)) := by
  unfold modelStoi
  rw [if_neg (by norm_num : ¬ (10000:ℤ) ≤ 0)]
  simp [resampled]

/-- C8 (amended): at the internal sample rate, prepending (for any input
lengths) or appending (for whole-frame inputs of equal length) any number
`k` of whole silent VAD frames identically to both the clean and the
degraded signal leaves the result of the modelled pipeline unchanged,
because the VAD stage removes exactly those silent frames; the clean
signal must have at least one voice-active frame (`0 < vadEmax x`).
Silence that is not a whole number of VAD frames, or a call at another
rate, can change the score — see the counterexample. -/
theorem modelStoi_silence_invariant (R : List ℝ → ℤ → ℤ → List ℝ)
    (F : List ℝ → List ℂ) (Wt : ℕ → ℕ → ℝ) (x y : List ℝ) (k : ℕ)
    (ext : Bool) (hE : 0 < vadEmax x) :
    (modelStoi R F Wt (List.replicate (400*k) 0 ++ x)
        (List.replicate (400*k) 0 ++ y) 10000 ext
      = modelStoi R F Wt x y 10000 ext) ∧
    (400 ∣ x.length → y.length = x.length →
      modelStoi R F Wt (x ++ List.replicate (400*k) 0)
          (y ++ List.replicate (400*k) 0) 10000 ext
        = modelStoi R F Wt x y 10000 ext) := by
  constructor
  · rw [modelStoi_at_internal_rate, modelStoi_at_internal_rate,
      vadKept_prepend k x hE]
    by_cases h0 : vadKept x = []
    · simp [h0]
    · rw [if_neg (by simpa using h0), if_neg h0,
        vadReconstruct_prepend k x x hE, vadReconstruct_prepend k x y hE]
  · intro hdvd hlen
    rw [modelStoi_at_internal_rate, modelStoi_at_internal_rate,
      vadKept_append k x hdvd hE]
    by_cases h0 : vadKept x = []
    · simp [h0]
    · rw [if_neg h0, if_neg h0,
        vadReconstruct_append k x x hdvd rfl hE,
        vadReconstruct_append k x y hdvd hlen hE]

/-- The energy of one frame of ones is 400. -/
theorem vadFrameEnergy_replicate_one :
    vadFrameEnergy (List.replicate 400 (1:ℝ)) 0 = 400 := by
  unfold vadFrameEnergy
  have h : ∀ t ∈ Finset.range 400,
      (List.replicate 400 (1:ℝ)).getD (400 * 0 + t) 0 ^ 2 = 1 := by
    intro t ht
    rw [Finset.mem_range] at ht
    rw [List.getD_eq_getElem _ _ (by rw [List.length_replicate]; omega)]
    rw [List.getElem_replicate]
    norm_num
  rw [Finset.sum_congr rfl h]
  simp

/-- A frame of ones has positive maximum VAD energy. -/
theorem vadEmax_replicate_one_pos :
    0 < vadEmax (List.replicate 400 (1:ℝ)) := by
  have h1 : vadNumFrames (List.replicate 400 (1:ℝ)) = 1 := by
    unfold vadNumFrames
    rw [List.length_replicate]
  have h2 : List.range 1 = [0] := by
    rw [List.range_succ, List.range_zero, List.nil_append]
  unfold vadEmax vadEnergies
  rw [h1, h2, List.map_cons, List.map_nil, List.foldr_cons, List.foldr_nil,
    vadFrameEnergy_replicate_one]
  norm_num

/-- Witness for C8: one frame of silence prepended and appended to one
frame of ones. -/
theorem modelStoi_silence_invariant_witness :
    0 < vadEmax (List.replicate 400 (1:ℝ)) ∧
      (modelStoi idResampler zeroTransform zeroWeights
          (List.replicate (400*1) 0 ++ List.replicate 400 1)
          (List.replicate (400*1) 0 ++ List.replicate 400 1) 10000 false
        = modelStoi idResampler zeroTransform zeroWeights
            (List.replicate 400 1) (List.replicate 400 1) 10000 false) ∧
      (modelStoi idResampler zeroTransform zeroWeights
          (List.replicate 400 1 ++ List.replicate (400*1) 0)
          (List.replicate 400 1 ++ List.replicate (400*1) 0) 10000 false
        = modelStoi idResampler zeroTransform zeroWeights
            (List.replicate 400 1) (List.replicate 400 1) 10000 false) :=
  ⟨vadEmax_replicate_one_pos,
    (modelStoi_silence_invariant idResampler zeroTransform zeroWeights
        (List.replicate 400 1) (List.replicate 400 1) 1 false
        vadEmax_replicate_one_pos).1,
    (modelStoi_silence_invariant idResampler zeroTransform zeroWeights
        (List.replicate 400 1) (List.replicate 400 1) 1 false
        vadEmax_replicate_one_pos).2
      (by rw [List.length_replicate]) rfl⟩


/-! ### Claim C8, counterexample material

The claim asserts silence-invariance for arbitrary amounts of silence and
at every rate.  In the modelled pipeline this fails: silence that is not a
whole number of 400-sample VAD frames shifts the frame grid, so different
material survives the VAD stage and the score changes; and at a rate other
than 10000 Hz the padded signal passes through the resampler primitive,
which is not constrained to commute with zero-padding.  The definitions
below instantiate the trusted-primitive parameters with simple admissible
stand-ins that make the two scores exactly computable; with the real
transform the same frame misalignment perturbs the band envelopes as
well. -/

/-- A concrete transform stand-in for the counterexample: one bin carrying
sample 128 of the windowed frame. -/
noncomputable def cexF : List ℝ → List ℂ :=
  fun fr => [Complex.ofReal (fr.getD 128 0)]

/-- A concrete all-ones weight matrix for the counterexample. -/
noncomputable def cexW : ℕ → ℕ → ℝ := fun _ _ => 1

/-- A concrete resampler stand-in for the counterexample at 8000 Hz. -/
def cexR : List ℝ → ℤ → ℤ → List ℝ :=
  fun s _ _ => if s.length = 4000 then s else []

/-- The counterexample's clean (= degraded) signal: 4000 unit samples,
ten voice-active VAD frames, exactly 30 STFT frames. -/
def cexClean : List ℝ := List.replicate 4000 1

/-- The signals with 200 samples of silence (half a VAD frame) prepended
to both. -/
def cexPadded : List ℝ := List.replicate 200 0 ++ cexClean

/-- The VAD-surviving material of the padded pair: the frame grid has
shifted, so 200 zeros and only 3800 unit samples survive. -/
def cexXvP : List ℝ := List.replicate 200 0 ++ List.replicate 3800 1

/-- Position 128 of the Hann window is non-zero
(`cos (256 * pi / 255) = 1` would force an integer solution of
`255 * n = 128`). -/
theorem hannw_128_ne_zero : hannw 128 ≠ 0 := by
  unfold hannw
  intro h
  have hc : Real.cos (2 * Real.pi * (128:ℕ) / 255) = 1 := by linarith
  rw [Real.cos_eq_one_iff] at hc
  obtain ⟨n, hn⟩ := hc
  have h2pi : (2 * Real.pi) ≠ 0 := by positivity
  have h5 : ((255 * n : ℤ) : ℝ) = 128 := by
    apply mul_right_cancel₀ h2pi
    push_cast
    push_cast at hn
    calc (255 * (n:ℝ)) * (2 * Real.pi)
        = ((n:ℝ) * (2 * Real.pi)) * 255 := by ring
      _ = (2 * Real.pi * 128 / 255) * 255 := by rw [hn]
      _ = 128 * (2 * Real.pi) := by
          rw [div_mul_cancel₀ _ (by norm_num : (255:ℝ) ≠ 0)]
          ring
  have h6 : (255 * n : ℤ) = 128 := by exact_mod_cast h5
  omega

/-- Length of the counterexample clean signal. -/
theorem cexClean_length : cexClean.length = 4000 := by
  unfold cexClean
  rw [List.length_replicate]

/-- Length of the padded counterexample signal. -/
theorem cexPadded_length : cexPadded.length = 4200 := by
  unfold cexPadded cexClean
  rw [List.length_append, List.length_replicate, List.length_replicate]

/-- Length of the padded pair's VAD-surviving material. -/
theorem cexXvP_length : cexXvP.length = 4000 := by
  unfold cexXvP
  rw [List.length_append, List.length_replicate, List.length_replicate]

/-- Samples of the clean counterexample signal. -/
theorem cexClean_getD {m : ℕ} (h : m < 4000) : cexClean.getD m 0 = 1 := by
  unfold cexClean
  rw [List.getD_eq_getElem _ _ (by rw [List.length_replicate]; omega)]
  rw [List.getElem_replicate]

/-- Leading samples of the padded signal are silent. -/
theorem cexPadded_getD_lo {m : ℕ} (h : m < 200) : cexPadded.getD m 0 = 0 := by
  unfold cexPadded
  rw [List.getD_append _ _ _ _ (by rw [List.length_replicate]; omega)]
  exact getD_replicate_zero m 200

/-- Samples of the padded signal after the silence are units. -/
theorem cexPadded_getD_hi {m : ℕ} (h1 : 200 ≤ m) (h2 : m < 4200) :
    cexPadded.getD m 0 = 1 := by
  unfold cexPadded
  rw [List.getD_append_right _ _ _ _ (by rw [List.length_replicate]; omega)]
  rw [List.length_replicate]
  exact cexClean_getD (by omega)

/-- Leading samples of the padded survivor are silent. -/
theorem cexXvP_getD_lo {m : ℕ} (h : m < 200) : cexXvP.getD m 0 = 0 := by
  unfold cexXvP
  rw [List.getD_append _ _ _ _ (by rw [List.length_replicate]; omega)]
  exact getD_replicate_zero m 200

/-- Samples of the padded survivor after the silence are units. -/
theorem cexXvP_getD_hi {m : ℕ} (h1 : 200 ≤ m) (h2 : m < 4000) :
    cexXvP.getD m 0 = 1 := by
  unfold cexXvP
  rw [List.getD_append_right _ _ _ _ (by rw [List.length_replicate]; omega)]
  rw [List.length_replicate]
  rw [List.getD_eq_getElem _ _ (by rw [List.length_replicate]; omega)]
  rw [List.getElem_replicate]

/-- Every VAD frame of the clean counterexample signal has energy 400. -/
theorem vadFrameEnergy_cexClean {i : ℕ} (hi : i < 10) :
    vadFrameEnergy cexClean i = 400 := by
  unfold vadFrameEnergy
  have h : ∀ t ∈ Finset.range 400, cexClean.getD (400 * i + t) 0 ^ 2 = 1 := by
    intro t ht
    rw [Finset.mem_range] at ht
    rw [cexClean_getD (by omega)]
    norm_num
  rw [Finset.sum_congr rfl h]
  simp

/-- The padded signal's first VAD frame is half silent: energy 200. -/
theorem vadFrameEnergy_cexPadded_zero : vadFrameEnergy cexPadded 0 = 200 := by
  unfold vadFrameEnergy
  rw [Finset.range_eq_Ico,
    ← Finset.sum_Ico_consecutive _ (by omega : 0 ≤ 200) (by omega : 200 ≤ 400)]
  have h1 : ∑ t ∈ Finset.Ico 0 200, cexPadded.getD (400 * 0 + t) 0 ^ 2 = 0 := by
    apply Finset.sum_eq_zero
    intro t ht
    rw [Finset.mem_Ico] at ht
    rw [show 400 * 0 + t = t by omega, cexPadded_getD_lo ht.2]
    norm_num
  have h2 : ∑ t ∈ Finset.Ico 200 400, cexPadded.getD (400 * 0 + t) 0 ^ 2
      = 200 := by
    have h : ∀ t ∈ Finset.Ico 200 400, cexPadded.getD (400 * 0 + t) 0 ^ 2 = 1 := by
      intro t ht
      rw [Finset.mem_Ico] at ht
      rw [show 400 * 0 + t = t by omega, cexPadded_getD_hi ht.1 (by omega)]
      norm_num
    rw [Finset.sum_congr rfl h, Finset.sum_const, Nat.card_Ico]
    norm_num
  rw [h1, h2]
  norm_num

/-- The padded signal's later VAD frames have energy 400. -/
theorem vadFrameEnergy_cexPadded_succ {i : ℕ} (h1 : 1 ≤ i) (hi : i < 10) :
    vadFrameEnergy cexPadded i = 400 := by
  unfold vadFrameEnergy
  have h : ∀ t ∈ Finset.range 400, cexPadded.getD (400 * i + t) 0 ^ 2 = 1 := by
    intro t ht
    rw [Finset.mem_range] at ht
    rw [cexPadded_getD_hi (by omega) (by omega)]
    norm_num
  rw [Finset.sum_congr rfl h]
  simp

/-- The clean counterexample signal has ten VAD frames. -/
theorem vadNumFrames_cexClean : vadNumFrames cexClean = 10 := by
  unfold vadNumFrames
  rw [cexClean_length]

/-- The padded signal also has ten VAD frames (its last 200 samples fall in
the discarded tail). -/
theorem vadNumFrames_cexPadded : vadNumFrames cexPadded = 10 := by
  unfold vadNumFrames
  rw [cexPadded_length]

/-- An upper bound on a `foldr max` with all entries bounded. -/
theorem foldr_max_le (l : List ℝ) (b : ℝ) (h : ∀ a ∈ l, a ≤ b) (hb : 0 ≤ b) :
    l.foldr max 0 ≤ b := by
  induction l with
  | nil => exact hb
  | cons a t ih =>
    rw [List.foldr_cons]
    exact max_le (h a (List.mem_cons_self a t))
      (ih fun u hu => h u (List.mem_cons_of_mem a hu))

/-- The clean counterexample's maximum frame energy is at most 400. -/
theorem vadEmax_cexClean_le : vadEmax cexClean ≤ 400 := by
  unfold vadEmax
  apply foldr_max_le _ _ ?_ (by norm_num)
  intro a ha
  unfold vadEnergies at ha
  rw [List.mem_map] at ha
  obtain ⟨i, hi, rfl⟩ := ha
  rw [List.mem_range, vadNumFrames_cexClean] at hi
  exact le_of_eq (vadFrameEnergy_cexClean hi)

/-- The padded signal's maximum frame energy is at most 400. -/
theorem vadEmax_cexPadded_le : vadEmax cexPadded ≤ 400 := by
  unfold vadEmax
  apply foldr_max_le _ _ ?_ (by norm_num)
  intro a ha
  unfold vadEnergies at ha
  rw [List.mem_map] at ha
  obtain ⟨i, hi, rfl⟩ := ha
  rw [List.mem_range, vadNumFrames_cexPadded] at hi
  rcases Nat.eq_zero_or_pos i with h0 | h0
  · subst h0
    rw [vadFrameEnergy_cexPadded_zero]
    norm_num
  · exact le_of_eq (vadFrameEnergy_cexPadded_succ h0 hi)

/-- All ten frames of the clean counterexample survive the VAD test. -/
theorem vadKept_cexClean : vadKept cexClean = List.range 10 := by
  unfold vadKept
  rw [vadNumFrames_cexClean]
  apply List.filter_eq_self.mpr
  intro i hi
  rw [List.mem_range] at hi
  simp only [decide_eq_true_eq]
  calc vadEmax cexClean ≤ 400 := vadEmax_cexClean_le
    _ ≤ 10000 * vadFrameEnergy cexClean i := by
        rw [vadFrameEnergy_cexClean hi]
        norm_num

/-- All ten frames of the padded signal survive too: the half-silent first
frame still has energy 200, well within 40 dB of the maximum. -/
theorem vadKept_cexPadded : vadKept cexPadded = List.range 10 := by
  unfold vadKept
  rw [vadNumFrames_cexPadded]
  apply List.filter_eq_self.mpr
  intro i hi
  rw [List.mem_range] at hi
  simp only [decide_eq_true_eq]
  rcases Nat.eq_zero_or_pos i with h0 | h0
  · subst h0
    rw [vadFrameEnergy_cexPadded_zero]
    calc vadEmax cexPadded ≤ 400 := vadEmax_cexPadded_le
      _ ≤ 10000 * 200 := by norm_num
  · rw [vadFrameEnergy_cexPadded_succ h0 hi]
    calc vadEmax cexPadded ≤ 400 := vadEmax_cexPadded_le
      _ ≤ 10000 * 400 := by norm_num

/-- Concatenating the first `n` VAD slices of a signal recovers its first
`400 * n` samples. -/
theorem vadSlice_flatten : ∀ (n : ℕ) (l : List ℝ),
    ((List.range n).map (vadSlice l)).flatten = l.take (400 * n)
  | 0, l => by simp
  | n + 1, l => by
    rw [List.range_succ_eq_map, List.map_cons, List.flatten_cons, List.map_map]
    have h1 : vadSlice l 0 = l.take 400 := by
      unfold vadSlice
      rw [Nat.mul_zero, List.drop_zero]
    have h2 : List.map (vadSlice l ∘ Nat.succ) (List.range n)
        = List.map (vadSlice (l.drop 400)) (List.range n) :=
      List.map_congr_left fun i _ => by
        simp only [Function.comp_apply]
        unfold vadSlice
        rw [List.drop_drop]
        congr 2
        omega
    rw [h1, h2, vadSlice_flatten n (l.drop 400), ← List.take_add]
    congr 1
    ring

/-- The clean pair's VAD stage is the identity on the counterexample. -/
theorem vadReconstruct_cexClean : vadReconstruct cexClean cexClean = cexClean := by
  unfold vadReconstruct
  rw [vadKept_cexClean, vadSlice_flatten]
  apply List.take_of_length_le
  rw [cexClean_length]

/-- The padded pair's VAD stage keeps the shifted frame grid's first 4000
samples: 200 zeros followed by 3800 units. -/
theorem vadReconstruct_cexPadded : vadReconstruct cexPadded cexPadded = cexXvP := by
  unfold vadReconstruct
  rw [vadKept_cexPadded, vadSlice_flatten]
  show cexPadded.take (400 * 10) = cexXvP
  unfold cexPadded cexXvP cexClean
  rw [List.take_append_eq_append_take, List.length_replicate]
  rw [List.take_of_length_le (by rw [List.length_replicate]; norm_num)]
  rw [List.take_replicate]
  have hmin : (400 * 10 - 200) ⊓ 4000 = 3800 := by omega
  rw [hmin]


/-- Entry 128 of an analysis frame is the windowed sample `128 * m + 128`. -/
theorem stftFrame_getD_128 (s : List ℝ) (m : ℕ) :
    (stftFrame s m).getD 128 0 = hannw 128 * s.getD (128 * m + 128) 0 := by
  unfold stftFrame
  rw [List.getD_append _ _ _ _
    (by rw [List.length_map, List.length_range]; omega)]
  rw [List.getD_eq_getElem _ _
    (by rw [List.length_map, List.length_range]; omega)]
  simp only [List.getElem_map, List.getElem_range]

/-- Bin 0 of the stand-in transform carries the squared windowed sample. -/
theorem magSq_cexF_zero (s : List ℝ) (m : ℕ) :
    magSq cexF s m 0 = ((stftFrame s m).getD 128 0) ^ 2 := by
  unfold magSq cexF
  simp [Complex.abs_ofReal, sq_abs]

/-- All other bins of the stand-in transform are empty. -/
theorem magSq_cexF_pos (s : List ℝ) (m bin : ℕ) (h : 1 ≤ bin) :
    magSq cexF s m bin = 0 := by
  unfold magSq cexF
  rw [List.getD_eq_default _ _ (by simp; omega)]
  simp

/-- Band energy under the stand-in transform and all-ones weights. -/
theorem bandEnergy_cexF (s : List ℝ) (j m : ℕ) :
    bandEnergy cexF cexW s j m = ((stftFrame s m).getD 128 0) ^ 2 := by
  unfold bandEnergy
  have h : ∀ bin ∈ Finset.range 257, cexW j bin * magSq cexF s m bin
      = if bin = 0 then ((stftFrame s m).getD 128 0) ^ 2 else 0 := by
    intro bin _
    rcases Nat.eq_zero_or_pos bin with h0 | h0
    · subst h0
      rw [magSq_cexF_zero]
      simp [cexW]
    · rw [magSq_cexF_pos s m bin h0, if_neg (by omega : ¬ bin = 0)]
      simp
  rw [Finset.sum_congr rfl h, Finset.sum_ite_eq' (Finset.range 257) 0]
  simp

/-- Band amplitude under the stand-in primitives: the absolute windowed
sample. -/
theorem envAmp_cexF (s : List ℝ) (j m : ℕ) :
    envAmp cexF cexW s j m = |hannw 128 * s.getD (128 * m + 128) 0| := by
  unfold envAmp
  rw [bandEnergy_cexF, Real.sqrt_sq_eq_abs, stftFrame_getD_128]

/-- The clean counterexample's band envelope is constant across the 30
analysis frames. -/
theorem envAmp_cexClean {j m : ℕ} (hm : m < 30) :
    envAmp cexF cexW cexClean j m = |hannw 128| := by
  rw [envAmp_cexF, cexClean_getD (by omega), mul_one]

/-- The padded survivor's band envelope vanishes at frame 0 (its windowed
sample 128 falls in the silent prefix). -/
theorem envAmp_cexXvP_zero (j : ℕ) : envAmp cexF cexW cexXvP j 0 = 0 := by
  rw [envAmp_cexF]
  rw [show 128 * 0 + 128 = 128 by omega]
  rw [cexXvP_getD_lo (by omega), mul_zero, abs_zero]

/-- The padded survivor's band envelope is non-zero on frames 1 to 29. -/
theorem envAmp_cexXvP_succ {j m : ℕ} (h1 : 1 ≤ m) (hm : m < 30) :
    envAmp cexF cexW cexXvP j m = |hannw 128| := by
  rw [envAmp_cexF, cexXvP_getD_hi (by omega) (by omega), mul_one]

/-- A vector constant on its first `n` entries has zero variance. -/
theorem const_zero_variance (n : ℕ) (hn : (n:ℝ) ≠ 0) (u : ℕ → ℝ) (c : ℝ)
    (h : ∀ t < n, u t = c) : norm2 n (centered n u) = 0 := by
  have hmean : meanv n u = c := by
    unfold meanv
    rw [Finset.sum_congr rfl fun t ht => h t (Finset.mem_range.mp ht)]
    rw [Finset.sum_const, Finset.card_range, nsmul_eq_mul]
    rw [mul_div_cancel_left₀ _ hn]
  have h0 : ∀ t ∈ Finset.range n, centered n u t * centered n u t = 0 := by
    intro t ht
    unfold centered
    rw [hmean, h t (Finset.mem_range.mp ht)]
    ring
  unfold norm2 dotv
  rw [Finset.sum_eq_zero h0, Real.sqrt_zero]

/-- Standard STOI score of the clean counterexample pair: the envelope is
constant, every (segment, band) pair is degenerate, the score is 0. -/
theorem stoiScore_cexBase : stoiScore cexF cexW cexClean cexClean = 0 := by
  unfold stoiScore
  have hlen : numSeg cexClean.length = 1 := by
    rw [cexClean_length]
    decide
  rw [hlen]
  have hz : ∀ d ∈ Finset.range 1, ∀ j ∈ Finset.range 15,
      pearson 30 (cleanVec cexF cexW cexClean d j)
        (clippedVec cexF cexW cexClean cexClean d j) = 0 := by
    intro d hd j _
    rw [Finset.mem_range] at hd
    have hd0 : d = 0 := by omega
    subst hd0
    have hvar : norm2 30 (centered 30 (cleanVec cexF cexW cexClean 0 j)) = 0 := by
      apply const_zero_variance 30 (by norm_num) _ (|hannw 128|)
      intro t ht
      show envAmp cexF cexW cexClean j (0 + t) = _
      rw [zero_add]
      exact envAmp_cexClean ht
    unfold pearson
    rw [if_pos (Or.inl hvar)]
  rw [Finset.sum_eq_zero fun d hd => Finset.sum_eq_zero (hz d hd)]
  exact zero_div _

/-- The padded survivor's segment vector vanishes at frame 0. -/
theorem cleanVec_cexXvP_zero (j : ℕ) : cleanVec cexF cexW cexXvP 0 j 0 = 0 := by
  show envAmp cexF cexW cexXvP j (0 + 0) = 0
  rw [zero_add]
  exact envAmp_cexXvP_zero j

/-- The padded survivor's segment vector is constant on frames 1 to 29. -/
theorem cleanVec_cexXvP_succ (j : ℕ) {t : ℕ} (h1 : 1 ≤ t) (ht : t < 30) :
    cleanVec cexF cexW cexXvP 0 j t = |hannw 128| := by
  show envAmp cexF cexW cexXvP j (0 + t) = _
  rw [zero_add]
  exact envAmp_cexXvP_succ h1 ht

/-- Sum of the padded survivor's segment vector over one segment. -/
theorem sum_cexXvP_row (j : ℕ) :
    ∑ t ∈ Finset.range 30, cleanVec cexF cexW cexXvP 0 j t
      = 29 * |hannw 128| := by
  rw [show (30:ℕ) = 29 + 1 from rfl, Finset.sum_range_succ']
  rw [cleanVec_cexXvP_zero, add_zero]
  rw [Finset.sum_congr rfl fun i hi =>
    cleanVec_cexXvP_succ j (by omega) (by rw [Finset.mem_range] at hi; omega)]
  rw [Finset.sum_const, Finset.card_range, nsmul_eq_mul]
  norm_num

/-- The padded survivor's segment vector has positive self dot product. -/
theorem dotv_cexXvP_pos (j : ℕ) :
    0 < dotv 30 (cleanVec cexF cexW cexXvP 0 j)
      (cleanVec cexF cexW cexXvP 0 j) := by
  have hterm : ∀ t ∈ Finset.range 30,
      0 ≤ cleanVec cexF cexW cexXvP 0 j t * cleanVec cexF cexW cexXvP 0 j t :=
    fun t _ => mul_self_nonneg _
  have h1 := Finset.single_le_sum hterm (show 1 ∈ Finset.range 30 by decide)
  have h2 : 0 < cleanVec cexF cexW cexXvP 0 j 1 * cleanVec cexF cexW cexXvP 0 j 1 := by
    rw [cleanVec_cexXvP_succ j (le_refl 1) (by omega)]
    exact mul_pos (abs_pos.mpr hannw_128_ne_zero) (abs_pos.mpr hannw_128_ne_zero)
  unfold dotv
  linarith

/-- The padded survivor's segment vector has positive norm. -/
theorem norm2_cexXvP_pos (j : ℕ) :
    0 < norm2 30 (cleanVec cexF cexW cexXvP 0 j) := by
  unfold norm2
  exact Real.sqrt_pos.mpr (dotv_cexXvP_pos j)

/-- With clean equal to degraded, normalisation is exact and clipping is a
no-op on the padded survivor's segment. -/
theorem clippedVec_cexXvP (j : ℕ) :
    clippedVec cexF cexW cexXvP cexXvP 0 j = cleanVec cexF cexW cexXvP 0 j := by
  funext t
  unfold clippedVec normFactor
  have hdeg : degVec cexF cexW cexXvP 0 j = cleanVec cexF cexW cexXvP 0 j := rfl
  rw [hdeg, div_self (ne_of_gt (norm2_cexXvP_pos j)), one_mul]
  apply min_eq_left
  apply le_mul_of_one_le_left
  · show (0:ℝ) ≤ envAmp cexF cexW cexXvP j (0 + t)
    unfold envAmp
    exact Real.sqrt_nonneg _
  · unfold clipBound
    have hp : (0:ℝ) < (10 : ℝ) ^ ((15 : ℝ) / 20) :=
      Real.rpow_pos_of_pos (by norm_num) _
    linarith

/-- The padded survivor's segment vector is non-constant, so its Pearson
self-correlation is 1. -/
theorem pearson_cexXvP (j : ℕ) :
    pearson 30 (cleanVec cexF cexW cexXvP 0 j)
      (cleanVec cexF cexW cexXvP 0 j) = 1 := by
  have hmean : meanv 30 (cleanVec cexF cexW cexXvP 0 j)
      = 29 * |hannw 128| / 30 := by
    unfold meanv
    rw [sum_cexXvP_row j]
    norm_num
  have hc0 : centered 30 (cleanVec cexF cexW cexXvP 0 j) 0
      = -(29 * |hannw 128| / 30) := by
    unfold centered
    rw [hmean, cleanVec_cexXvP_zero]
    ring
  have hdpos : 0 < dotv 30 (centered 30 (cleanVec cexF cexW cexXvP 0 j))
      (centered 30 (cleanVec cexF cexW cexXvP 0 j)) := by
    have hterm : ∀ t ∈ Finset.range 30,
        0 ≤ centered 30 (cleanVec cexF cexW cexXvP 0 j) t *
          centered 30 (cleanVec cexF cexW cexXvP 0 j) t :=
      fun t _ => mul_self_nonneg _
    have h1 := Finset.single_le_sum hterm (show 0 ∈ Finset.range 30 by decide)
    have h2 : 0 < centered 30 (cleanVec cexF cexW cexXvP 0 j) 0 *
        centered 30 (cleanVec cexF cexW cexXvP 0 j) 0 := by
      rw [hc0, neg_mul_neg]
      have hpos : 0 < 29 * |hannw 128| / 30 := by
        have := abs_pos.mpr hannw_128_ne_zero
        positivity
      exact mul_pos hpos hpos
    unfold dotv
    linarith
  have hnpos : 0 < norm2 30 (centered 30 (cleanVec cexF cexW cexXvP 0 j)) := by
    unfold norm2
    exact Real.sqrt_pos.mpr hdpos
  unfold pearson
  rw [if_neg (by push_neg; exact ⟨ne_of_gt hnpos, ne_of_gt hnpos⟩)]
  unfold norm2
  rw [Real.mul_self_sqrt (le_of_lt hdpos)]
  exact div_self (ne_of_gt hdpos)

/-- Standard STOI score of the padded pair: every (segment, band) pair
correlates perfectly, the score is 1. -/
theorem stoiScore_cexPadded : stoiScore cexF cexW cexXvP cexXvP = 1 := by
  unfold stoiScore
  have hlen : numSeg cexXvP.length = 1 := by
    rw [cexXvP_length]
    decide
  rw [hlen]
  have hone : ∀ d ∈ Finset.range 1, ∀ j ∈ Finset.range 15,
      pearson 30 (cleanVec cexF cexW cexXvP d j)
        (clippedVec cexF cexW cexXvP cexXvP d j) = 1 := by
    intro d hd j _
    rw [Finset.mem_range] at hd
    have hd0 : d = 0 := by omega
    subst hd0
    rw [clippedVec_cexXvP j]
    exact pearson_cexXvP j
  rw [Finset.sum_congr rfl fun d hd => Finset.sum_congr rfl (hone d hd)]
  rw [Finset.sum_const, Finset.sum_const, Finset.card_range, Finset.card_range]
  norm_num

/-- C8 counterexample: the claim as stated is false at an explicit concrete
input.  Prepending 200 zero samples (pure silence, but half a VAD frame)
identically to a valid clean/degraded pair at the internal rate shifts the
400-sample frame grid: different material survives the VAD stage, and the
score changes from 0 to 1 under concrete admissible instantiations of the
trusted-primitive parameters.  At the supported rate 8000 Hz the padded
signals moreover pass through the resampler primitive, under which the
padded call can lose all voice activity and fail instead of reproducing
the original score. -/
theorem modelStoi_silence_counterexample :
    modelStoi idResampler cexF cexW cexClean cexClean 10000 false
        = .ok 0 ∧
      modelStoi idResampler cexF cexW cexPadded cexPadded 10000 false
        = .ok 1 ∧
      (0 : ℝ) ≠ 1 ∧
      modelStoi cexR cexF cexW cexClean cexClean 8000 false = .ok 0 ∧
      modelStoi cexR cexF cexW cexPadded cexPadded 8000 false
        = .error .insufficientVoiceActivity := by
  have hk10 : ¬ vadKept cexClean = [] := by
    rw [vadKept_cexClean]
    simp
  have hkP : ¬ vadKept cexPadded = [] := by
    rw [vadKept_cexPadded]
    simp
  refine ⟨?_, ?_, by norm_num, ?_, ?_⟩
  · rw [modelStoi_at_internal_rate, if_neg hk10, if_neg Bool.false_ne_true,
      vadReconstruct_cexClean, stoiScore_cexBase]
  · rw [modelStoi_at_internal_rate, if_neg hkP, if_neg Bool.false_ne_true,
      vadReconstruct_cexPadded, stoiScore_cexPadded]
  · unfold modelStoi
    rw [if_neg (by norm_num : ¬ (8000:ℤ) ≤ 0)]
    have hres : resampled cexR cexClean 8000 = cexClean := by
      unfold resampled cexR
      rw [if_neg (by norm_num : ¬ (8000:ℤ) = 10000), if_pos cexClean_length]
    rw [hres, if_neg hk10, if_neg Bool.false_ne_true,
      vadReconstruct_cexClean, stoiScore_cexBase]
  · unfold modelStoi
    rw [if_neg (by norm_num : ¬ (8000:ℤ) ≤ 0)]
    have hres : resampled cexR cexPadded 8000 = [] := by
      unfold resampled cexR
      rw [if_neg (by norm_num : ¬ (8000:ℤ) = 10000)]
      rw [if_neg (by rw [cexPadded_length]; norm_num)]
    rw [hres, if_pos (show vadKept ([] : List ℝ) = [] from rfl)]


end FastStoi
